import Mathlib

/-!
# Verification of `app.js` (COVID-19 trend chart generator)

A shallow embedding of the two classes of `src/app.js`:

* `Spider` (`getData`, `filterData`, `getCountryData`): fetches one record
  list per country and converts it to data points;
* `Chart` (`format`, `getChartObject`, `buildHtml`): aligns the country
  series on a date axis and embeds the chart configuration in a document.

JavaScript arrays are lists, objects are structures, and a thrown
`TypeError` is the `Except.error` result.  The remote endpoint, the
`moment(...).format('MM-DD')` call and `JSON.stringify` are parameters;
`axios.request` is called without `validateStatus`, so it resolves for the
statuses 200 to 299 and rejects for every other status.
-/

namespace Covid

/-! ## JavaScript values -/

/-- The JavaScript values a counter of a record can hold. Numbers are the
integer counts of the endpoint. -/
inductive JSVal where
  | undefined : JSVal
  | null : JSVal
  | bool (b : Bool) : JSVal
  | num (n : Int) : JSVal
  | str (s : String) : JSVal
  deriving DecidableEq, Repr

/-- JavaScript truthiness (`ToBoolean`). -/
def JSVal.truthy : JSVal → Bool
  | .undefined => false
  | .null => false
  | .bool b => b
  | .num n => n != 0
  | .str s => s != ""

/-- The expression `v || 0`. -/
def JSVal.orZero (v : JSVal) : JSVal :=
  if v.truthy then v else .num 0

/-- The exceptions the modelled code can raise. -/
inductive JSError where
  | typeError : JSError
  deriving DecidableEq, Repr

/-- Equality of results is decidable, so that the code can be evaluated on
concrete inputs. -/
instance instDecidableEqExcept {ε α : Type} [DecidableEq ε] [DecidableEq α] :
    DecidableEq (Except ε α)
  | .ok a, .ok b => if h : a = b then isTrue (by rw [h]) else isFalse (fun h2 => h (by cases h2; rfl))
  | .error a, .error b =>
    if h : a = b then isTrue (by rw [h]) else isFalse (fun h2 => h (by cases h2; rfl))
  | .ok _, .error _ => isFalse (fun h => by cases h)
  | .error _, .ok _ => isFalse (fun h => by cases h)

/-! ## Data model -/

/-- An entry of `COUNTRY_LIST`: `{en, cn}`. -/
structure Country where
  en : String
  cn : String
  deriving DecidableEq, Repr

/-- The `attributes` object of a record of the endpoint. -/
structure Attributes where
  Last_Update : JSVal
  Deaths : JSVal
  Confirmed : JSVal
  Delta_Confirmed : JSVal
  deriving DecidableEq, Repr

/-- A record of the `features` array: `{attributes: {...}}`. -/
structure Feature where
  attributes : Attributes
  deriving DecidableEq, Repr

/-- A data point built by `filterData`. -/
structure DataPoint where
  date : String
  Deaths : JSVal
  Confirmed : JSVal
  Delta_Confirmed : JSVal
  deriving DecidableEq, Repr

/-- The object built by `filterData`: the country's properties and `data`. -/
structure CountryData where
  en : String
  cn : String
  data : List DataPoint
  deriving DecidableEq, Repr

/-- The own property names of a data point, the `type` argument of
`Chart.format`. -/
inductive Field where
  | date : Field
  | Deaths : Field
  | Confirmed : Field
  | Delta_Confirmed : Field
  deriving DecidableEq, Repr

/-- The property read `item[type]`. -/
def DataPoint.get (p : DataPoint) : Field → JSVal
  | .date => .str p.date
  | .Deaths => p.Deaths
  | .Confirmed => p.Confirmed
  | .Delta_Confirmed => p.Delta_Confirmed

/-- The answer of the endpoint as `getCountryData` reads it: `res.status`
and `res.data.features`, which is `none` when the body has no `features`
member (the read gives `undefined`). -/
structure Response where
  status : Nat
  features : Option (List Feature)
  deriving DecidableEq, Repr

/-- The exceptions `Spider.getData` can raise: the rejection of
`axios.request` for the given status, and the `TypeError` of a call of `map`
on `undefined`. -/
inductive FetchError where
  | requestFailed (status : Nat) : FetchError
  | typeError : FetchError
  deriving DecidableEq, Repr

/-! ## Spider -/

/-- `Spider.filterData(country, data)`; `fmt` is
`v => moment(v).format('MM-DD')`. -/
def filterData (fmt : JSVal → String) (country : Country) (data : List Feature) :
    CountryData :=
  { en := country.en
    cn := country.cn
    data := data.map fun f =>
      { date := fmt f.attributes.Last_Update
        Deaths := f.attributes.Deaths
        Confirmed := f.attributes.Confirmed
        Delta_Confirmed := f.attributes.Delta_Confirmed } }

/-- `axios.request(...)` with the default `validateStatus`
(`status >= 200 && status < 300`): the promise resolves with the response for
such a status and rejects for every other one; `endpoint` answers the request
made for the country identifier. -/
def axiosRequest (endpoint : String → Response) (country : String) :
    Except FetchError Response :=
  let res := endpoint country
  if 200 ≤ res.status ∧ res.status < 300 then .ok res else .error (.requestFailed res.status)

/-- `Spider.getCountryData(country)`: a rejection of the awaited request
propagates; the result is `res.data.features` for the status 200 and `[]`
otherwise. `none` is `undefined`. -/
def getCountryData (endpoint : String → Response) (country : String) :
    Except FetchError (Option (List Feature)) :=
  match axiosRequest endpoint country with
  | .error e => .error e
  | .ok res => if res.status = 200 then .ok res.features else .ok (some [])

/-- The call `this.filterData(country, res)` of `getData`, where `res` can be
`undefined`: `data.map` then throws a `TypeError`; on an array the call is
`filterData`. -/
def callFilterData (fmt : JSVal → String) (country : Country)
    (data : Option (List Feature)) : Except FetchError CountryData :=
  match data with
  | none => .error .typeError
  | some records => .ok (filterData fmt country records)

/-- The `for ... of` loop of `Spider.getData` on the countries still to
visit, with `dataList` as built so far: an exception ends the loop. -/
def getDataLoop (fmt : JSVal → String) (endpoint : String → Response) :
    List Country → List CountryData → Except FetchError (List CountryData)
  | [], dataList => .ok dataList
  | country :: rest, dataList =>
    match getCountryData endpoint country.en with
    | .error e => .error e
    | .ok res =>
      match callFilterData fmt country res with
      | .error e => .error e
      | .ok data => getDataLoop fmt endpoint rest (dataList ++ [data])

/-- `Spider.getData()` on `this.countryList = countryList`. -/
def getData (fmt : JSVal → String) (endpoint : String → Response)
    (countryList : List Country) : Except FetchError (List CountryData) :=
  getDataLoop fmt endpoint countryList []

/-! ## Chart -/

/-- `Object.assign(target, source)` on two arrays: every index of `source`
is written to `target`, which grows when `source` is longer. -/
def objectAssign {α : Type} : List α → List α → List α
  | target, [] => target
  | [], source => source
  | _ :: target, x :: source => x :: objectAssign target source

/-- `Array.prototype.indexOf` counted from position `k`: the first index
holding `d`, or `-1`. -/
def indexOfFrom (d : String) : List String → Nat → Int
  | [], _ => -1
  | x :: xs, k => if x = d then (k : Int) else indexOfFrom d xs (k + 1)

/-- `dateList.indexOf(date)`. -/
def indexOf (dateList : List String) (date : String) : Int :=
  indexOfFrom date dateList 0

/-- `list[i]` for an integer `i`: `none` stands for `undefined`. -/
def index {α : Type} (list : List α) (i : Int) : Option α :=
  if i < 0 then none else list[i.toNat]?

/-- `Array.prototype.map` with a callback that can throw: the first
exception ends the traversal. -/
def arrayMap {α β : Type} (f : α → Except JSError β) : List α → Except JSError (List β)
  | [] => .ok []
  | x :: xs =>
    match f x with
    | .error e => .error e
    | .ok y =>
      match arrayMap f xs with
      | .error e => .error e
      | .ok ys => .ok (y :: ys)

/-- An entry of `series`. -/
structure Series where
  name : String
  type : String
  data : List JSVal
  deriving DecidableEq, Repr

/-- The result of `Chart.format`. -/
structure Formatted where
  dateArr : List String
  series : List Series
  deriving DecidableEq, Repr

/-- The first loop of `Chart.format`: `dateArr` after every country's date
array has been assigned onto it. -/
def buildDateArr (data : List CountryData) : List String :=
  data.foldl (fun dateArr country => objectAssign dateArr (country.data.map (·.date))) []

/-- The callback `date => { const i = dateList.indexOf(date); return
list[i][type] || 0; }`. Reading a property of `undefined` throws. -/
def cell (type : Field) (list : List DataPoint) (dateList : List String)
    (date : String) : Except JSError JSVal :=
  let i := indexOf dateList date
  match index list i with
  | none => .error .typeError
  | some item => .ok (item.get type).orZero

/-- The callback of `this.data.map` in `Chart.format`. -/
def formatCountry (type : Field) (dateArr : List String) (country : CountryData) :
    Except JSError Series :=
  let list := country.data
  let dateList := list.map (·.date)
  match arrayMap (cell type list dateList) dateArr with
  | .error e => .error e
  | .ok data => .ok { name := country.cn, type := "line", data := data }

/-- `Chart.format(type)` on `this.data = data`. -/
def format (type : Field) (data : List CountryData) : Except JSError Formatted :=
  let dateArr := buildDateArr data
  match arrayMap (formatCountry type dateArr) data with
  | .error e => .error e
  | .ok series => .ok { dateArr := dateArr, series := series }

/-- The `title` object of a chart configuration. -/
structure Title where
  text : String
  deriving DecidableEq, Repr

/-- The `tooltip` object of a chart configuration. -/
structure Tooltip where
  trigger : String
  deriving DecidableEq, Repr

/-- The `legend` object of a chart configuration. -/
structure Legend where
  data : List String
  deriving DecidableEq, Repr

/-- The `xAxis` object; `boundaryGap` is absent from the `death` chart. -/
structure XAxis where
  type : String
  boundaryGap : Option Bool
  data : List String
  deriving DecidableEq, Repr

/-- The `yAxis` object of a chart configuration. -/
structure YAxis where
  type : String
  deriving DecidableEq, Repr

/-- A chart configuration object. -/
structure ChartOption where
  title : Title
  tooltip : Tooltip
  legend : Legend
  xAxis : XAxis
  yAxis : YAxis
  series : List Series
  deriving DecidableEq, Repr

/-- The object returned by `Chart.getChartObject`; the third member is the
empty object. -/
structure ChartObject where
  death : ChartOption
  confirm : ChartOption
  ratio : Unit
  deriving DecidableEq, Repr

/-- `Chart.getChartObject()` on `this.data = data`. -/
def getChartObject (data : List CountryData) : Except JSError ChartObject :=
  match format .Confirmed data with
  | .error e => .error e
  | .ok r1 =>
    let confirmDateArr := r1.dateArr
    let confirmSeries := r1.series
    let legend := confirmSeries.map (·.name)
    let confirm : ChartOption :=
      { title := { text := "主要疫情国家确诊趋势图" }
        tooltip := { trigger := "axis" }
        legend := { data := legend }
        xAxis := { type := "category", boundaryGap := some false, data := confirmDateArr }
        yAxis := { type := "value" }
        series := confirmSeries }
    match format .Confirmed data with
    | .error e => .error e
    | .ok r2 =>
      let deathDataArr := r2.dateArr
      let deathSeries := r2.series
      let death : ChartOption :=
        { title := { text := "主要疫情国家确诊趋势图" }
          tooltip := { trigger := "axis" }
          legend := { data := legend }
          xAxis := { type := "category", boundaryGap := none, data := deathDataArr }
          yAxis := { type := "value" }
          series := deathSeries }
      .ok { death := death, confirm := confirm, ratio := () }

/-- The pieces of the document before the serialized configuration. -/
def htmlHead : List String :=
  [ "<!DOCTYPE html>",
    "<html>",
    "<head>",
    "<meta charset=\"utf-8\">",
    "<script src=\"https://cdn.bootcss.com/echarts/4.7.0/echarts.min.js\"></script>",
    "<style>",
    "* \x7bmargin: 0; padding: 0;\x7d",
    "#main \x7bdisplay: flex; height: 100vh; width: 100vw;\x7d",
    "</style>",
    "</head>",
    "<body>",
    "<div id=\"main\">",
    "</div>",
    "<script type=\"text/javascript\">",
    "window.onload = function() \x7b",
    "var confirm = echarts.init(document.getElementById(\"main\"));" ]

/-- The pieces of the document after the serialized configuration. -/
def htmlTail : List String :=
  [ "\x7d",
    "</script>",
    "</body>",
    "</html>" ]

/-- `Chart.buildHtml()` on `this.data = data`; `stringify` is
`JSON.stringify` on a chart configuration. -/
def buildHtml (stringify : ChartOption → String) (data : List CountryData) :
    Except JSError String :=
  match getChartObject data with
  | .error e => .error e
  | .ok o =>
    let confirm := o.confirm
    .ok (String.join
      (htmlHead ++ [ "confirm.setOption(" ++ stringify confirm ++ ");" ] ++ htmlTail))

/-! ## The alignment of the specification -/

/-- The date axis as the specification words it: countries in order, each
country's dates in order, a date appended when it is not yet on the axis. -/
def specDateAxis (data : List CountryData) : List String :=
  data.foldl
    (fun axis country =>
      country.data.foldl (fun axis item => if item.date ∈ axis then axis else axis ++ [item.date])
        axis)
    []

/-- The aligned series of one country as the specification words it: the
field at the index of the date in the country's own date list, `0` when the
date is not found. -/
def specAligned (type : Field) (axis : List String) (country : CountryData) : List JSVal :=
  axis.map fun date =>
    match index country.data (indexOf (country.data.map (·.date)) date) with
    | some item => item.get type
    | none => .num 0

/-- The value the callback of `format` returns for `date` when the lookup
finds it: the field of the first data point of `list` carrying `date`, a
falsy value replaced by `0`. -/
def cellValue (type : Field) (list : List DataPoint) (date : String) : JSVal :=
  match list.find? (fun q => decide (q.date = date)) with
  | some item => (item.get type).orZero
  | none => .num 0

/-- The result of the fetcher as the specification words it: one series per
country in input order, the conversion of the features for the status 200
and no data point for every other status. -/
def specGetData (fmt : JSVal → String) (endpoint : String → Response)
    (countryList : List Country) : List CountryData :=
  countryList.map fun country =>
    if (endpoint country.en).status = 200
    then filterData fmt country ((endpoint country.en).features.getD [])
    else { en := country.en, cn := country.cn, data := [] }

/-! ## Sample inputs -/

/-- A data point with the given date and counters. -/
def point (date : String) (deaths confirmed : Int) : DataPoint :=
  { date := date, Deaths := .num deaths, Confirmed := .num confirmed,
    Delta_Confirmed := .num 0 }

/-- Country A with dates `03-01`, `03-03`. -/
def sampleA : CountryData :=
  { en := "US", cn := "美国", data := [point "03-01" 1 10, point "03-03" 3 30] }

/-- Country B with dates `03-01`, `03-02`. -/
def sampleB : CountryData :=
  { en := "Spain", cn := "西班牙", data := [point "03-01" 2 20, point "03-02" 4 40] }

/-- A country whose request did not succeed: no data point. -/
def sampleEmpty : CountryData :=
  { en := "Italy", cn := "意大利", data := [] }


/-- Country C with the dates of country A, `03-01`, `03-03`. -/
def sampleC : CountryData :=
  { en := "Germany", cn := "德国", data := [point "03-01" 5 50, point "03-03" 6 60] }

/-- The result of `format('Deaths')` on the countries A and C. -/
def alignedAC : Formatted :=
  { dateArr := ["03-01", "03-03"],
    series := [⟨"美国", "line", [.num 1, .num 3]⟩, ⟨"德国", "line", [.num 5, .num 6]⟩] }

/-- A series that spans more than a year: the date `03-01` occurs twice. -/
def sampleDup : CountryData :=
  { en := "China", cn := "中国", data := [point "03-01" 1 10, point "03-01" 7 70] }

/-- A series whose only data point has a null `Deaths` counter and no
`Confirmed` counter. -/
def sampleNull : CountryData :=
  { en := "Iran", cn := "伊朗",
    data := [{ date := "03-01", Deaths := .null, Confirmed := .undefined,
               Delta_Confirmed := .num 4 }] }

/-- An endpoint that answers 200 with one record for `US` and 500 for every
other country. -/
def sampleEndpoint (country : String) : Response :=
  if country = "US" then
    { status := 200
      features := some [{ attributes := { Last_Update := .num 1583020800000, Deaths := .num 1,
                                          Confirmed := .null, Delta_Confirmed := .undefined } }] }
  else { status := 500, features := none }

/-- A date formatter for the sample endpoint. -/
def sampleFmt : JSVal → String
  | .num 1583020800000 => "03-01"
  | _ => "Invalid date"

/-! ## Lemmas on the array primitives -/

theorem objectAssign_eq {α : Type} (target source : List α) :
    objectAssign target source = source ++ target.drop source.length := by
  induction source generalizing target with
  | nil => cases target <;> simp [objectAssign]
  | cons x xs ih => cases target <;> simp [objectAssign, ih]

theorem objectAssign_nil {α : Type} (source : List α) : objectAssign [] source = source := by
  simp [objectAssign_eq]

theorem objectAssign_length {α : Type} (target source : List α) :
    (objectAssign target source).length = max target.length source.length := by
  rw [objectAssign_eq, List.length_append, List.length_drop]
  omega

theorem objectAssign_getElem? {α : Type} (target source : List α) (i : Nat) :
    (objectAssign target source)[i]? = if i < source.length then source[i]? else target[i]? := by
  rw [objectAssign_eq]
  split
  · next h => rw [List.getElem?_append_left h]
  · next h =>
    rw [List.getElem?_append_right (by omega), List.getElem?_drop]
    congr 1
    omega

theorem arrayMap_ok_iff {α β : Type} (f : α → Except JSError β) (xs : List α) (ys : List β) :
    arrayMap f xs = .ok ys ↔ List.Forall₂ (fun x y => f x = .ok y) xs ys := by
  induction xs generalizing ys with
  | nil =>
    cases ys <;> simp [arrayMap]
  | cons x xs ih =>
    cases hx : f x with
    | error e =>
      simp only [arrayMap, hx]
      constructor
      · intro h; cases h
      · intro h; cases h with
        | cons h1 _ => rw [hx] at h1; cases h1
    | ok y =>
      cases hxs : arrayMap f xs with
      | error e =>
        simp only [arrayMap, hx, hxs]
        constructor
        · intro h; cases h
        · intro h; cases h with
          | cons h1 h2 => rw [← ih, hxs] at h2; cases h2
      | ok zs =>
        simp only [arrayMap, hx, hxs]
        constructor
        · intro h
          cases h
          exact List.Forall₂.cons hx ((ih zs).1 hxs)
        · intro h; cases h with
          | cons h1 h2 =>
            rw [hx] at h1
            cases h1
            rw [← ih, hxs] at h2
            cases h2
            rfl

theorem arrayMap_length {α β : Type} {f : α → Except JSError β} {xs : List α} {ys : List β}
    (h : arrayMap f xs = .ok ys) : ys.length = xs.length :=
  (((arrayMap_ok_iff f xs ys).1 h).length_eq).symm

theorem arrayMap_error_of_mem {α β : Type} {f : α → Except JSError β} {xs : List α} {x : α}
    (hx : x ∈ xs) (hf : f x = .error .typeError) : arrayMap f xs = .error .typeError := by
  induction xs with
  | nil => cases hx
  | cons y ys ih =>
    cases hy : f y with
    | error e => cases e; simp [arrayMap, hy]
    | ok v =>
      have hx2 : x ∈ ys := by
        rcases List.mem_cons.1 hx with h | h
        · subst h; rw [hf] at hy; cases hy
        · exact h
      simp [arrayMap, hy, ih hx2]

theorem arrayMap_total {α β : Type} (f : α → Except JSError β) (g : α → β) (xs : List α)
    (h : ∀ x ∈ xs, f x = .ok (g x)) : arrayMap f xs = .ok (xs.map g) := by
  induction xs with
  | nil => rfl
  | cons y ys ih =>
    have h1 := h y (List.mem_cons_self _ _)
    have h2 := ih (fun x hx => h x (List.mem_cons_of_mem _ hx))
    simp [arrayMap, h1, h2]

theorem indexOfFrom_spec (d : String) (list : List DataPoint) (k : Nat) :
    (indexOfFrom d (list.map (·.date)) k = -1 ∧
        list.find? (fun q => decide (q.date = d)) = none) ∨
      ∃ n : Nat, indexOfFrom d (list.map (·.date)) k = ((k + n : Nat) : Int) ∧
        list[n]? = list.find? (fun q => decide (q.date = d)) ∧
        (list.find? (fun q => decide (q.date = d))).isSome = true := by
  induction list generalizing k with
  | nil => left; simp [indexOfFrom]
  | cons x xs ih =>
    by_cases hx : x.date = d
    · right
      refine ⟨0, ?_, ?_, ?_⟩ <;> simp [indexOfFrom, hx]
    · rcases ih (k + 1) with ⟨h1, h2⟩ | ⟨n, h1, h2, h3⟩
      · left
        simp [indexOfFrom, hx, h1, h2]
      · right
        refine ⟨n + 1, ?_, ?_, ?_⟩
        · simp only [List.map_cons, indexOfFrom, hx, if_false, h1]
          congr 1
          omega
        · simp [hx, h2]
        · simp [hx, h3]

theorem index_indexOf (d : String) (list : List DataPoint) :
    index list (indexOf (list.map (·.date)) d) = list.find? (fun q => decide (q.date = d)) := by
  unfold indexOf index
  rcases indexOfFrom_spec d list 0 with ⟨h1, h2⟩ | ⟨n, h1, h2, _⟩
  · rw [h1, h2]; rfl
  · rw [h1, ← h2]
    simp

theorem cell_eq (type : Field) (list : List DataPoint) (d : String) :
    cell type list (list.map (·.date)) d =
      match list.find? (fun q => decide (q.date = d)) with
      | none => .error .typeError
      | some item => .ok (item.get type).orZero := by
  unfold cell
  simp only [index_indexOf]

theorem cell_error_iff (type : Field) (list : List DataPoint) (d : String) :
    cell type list (list.map (·.date)) d = .error .typeError ↔ d ∉ list.map (·.date) := by
  rw [cell_eq]
  cases h : list.find? (fun q => decide (q.date = d)) with
  | none =>
    simp only [true_iff]
    rw [List.find?_eq_none] at h
    simp only [List.mem_map, not_exists, not_and]
    intro q hq hqd
    exact absurd (h q hq) (by simp [hqd])
  | some item =>
    have h1 := List.mem_of_find?_eq_some h
    have h2 := List.find?_some h
    have h3 : d ∈ list.map (·.date) := List.mem_map.2 ⟨item, h1, by simpa using h2⟩
    constructor
    · intro h4; cases h4
    · intro h4; exact absurd h3 h4

/-! ## Lemmas on the date axis -/

theorem foldl_assign_length (data : List CountryData) (acc : List String) :
    (data.foldl (fun dateArr country => objectAssign dateArr (country.data.map (·.date)))
        acc).length = max acc.length ((data.map (·.data.length)).foldr max 0) := by
  induction data generalizing acc with
  | nil => simp
  | cons c cs ih =>
    simp only [List.foldl_cons, List.map_cons, List.foldr_cons]
    rw [ih, objectAssign_length, List.length_map]
    omega

theorem buildDateArr_snoc (data : List CountryData) (c : CountryData) :
    buildDateArr (data ++ [c]) = objectAssign (buildDateArr data) (c.data.map (·.date)) := by
  simp [buildDateArr, List.foldl_append]

theorem buildDateArr_length (data : List CountryData) :
    (buildDateArr data).length = (data.map (·.data.length)).foldr max 0 := by
  have h := foldl_assign_length data []
  simpa [buildDateArr] using h

theorem buildDateArr_last (data : List CountryData) (i : Nat)
    (hi : i < (buildDateArr data).length) :
    ∃ (k : Nat) (c : CountryData), data[k]? = some c ∧ i < c.data.length ∧
      (∀ (k2 : Nat) (c2 : CountryData), k < k2 → data[k2]? = some c2 → c2.data.length ≤ i) ∧
      (buildDateArr data)[i]? = (c.data[i]?).map (·.date) := by
  induction data using List.reverseRecOn with
  | nil => simp [buildDateArr] at hi
  | append_singleton cs c ih =>
    rw [buildDateArr_snoc] at hi ⊢
    by_cases hc : i < c.data.length
    · refine ⟨cs.length, c, by simp, hc, ?_, ?_⟩
      · intro k2 c2 hk h2
        have : k2 < (cs ++ [c]).length := (List.getElem?_eq_some.1 h2).1
        simp at this
        omega
      · rw [objectAssign_getElem?]
        simp [hc]
    · have hi2 : i < (buildDateArr cs).length := by
        rw [objectAssign_length, List.length_map] at hi
        omega
      obtain ⟨k, c0, h1, h2, h3, h4⟩ := ih hi2
      have hk : k < cs.length := (List.getElem?_eq_some.1 h1).1
      refine ⟨k, c0, ?_, h2, ?_, ?_⟩
      · rw [List.getElem?_append_left hk]; exact h1
      · intro k2 c2 hk2 h5
        by_cases hlt : k2 < cs.length
        · rw [List.getElem?_append_left hlt] at h5
          exact h3 k2 c2 hk2 h5
        · have hlen : k2 < (cs ++ [c]).length := (List.getElem?_eq_some.1 h5).1
          simp at hlen
          have hk2e : k2 = cs.length := by omega
          subst hk2e
          simp at h5
          subst h5
          omega
      · rw [objectAssign_getElem?, List.length_map, if_neg hc]
        exact h4

/-! ## Lemmas on `format` -/

theorem formatCountry_ok_iff (type : Field) (dateArr : List String) (c : CountryData)
    (s : Series) :
    formatCountry type dateArr c = .ok s ↔
      s.name = c.cn ∧ s.type = "line" ∧
        arrayMap (cell type c.data (c.data.map (·.date))) dateArr = .ok s.data := by
  unfold formatCountry
  cases h : arrayMap (cell type c.data (c.data.map (·.date))) dateArr with
  | error e =>
    simp only [h]
    constructor
    · intro h2; cases h2
    · intro h2; cases h2.2.2
  | ok vals =>
    simp only [h]
    constructor
    · intro h2
      cases h2
      exact ⟨rfl, rfl, rfl⟩
    · rintro ⟨h1, h2, h3⟩
      cases h3
      cases s
      simp only at h1 h2
      subst h1 h2
      rfl

theorem format_ok_iff (type : Field) (data : List CountryData) (r : Formatted) :
    format type data = .ok r ↔
      r.dateArr = buildDateArr data ∧
        arrayMap (formatCountry type (buildDateArr data)) data = .ok r.series := by
  unfold format
  cases h : arrayMap (formatCountry type (buildDateArr data)) data with
  | error e =>
    simp only [h]
    constructor
    · intro h2; cases h2
    · intro h2; cases h2.2
  | ok series =>
    simp only [h]
    constructor
    · intro h2
      cases h2
      exact ⟨rfl, rfl⟩
    · rintro ⟨h1, h2⟩
      cases h2
      cases r
      simp only at h1
      subst h1
      rfl

theorem formatCountry_error_of_missing (type : Field) (dateArr : List String)
    (c : CountryData) (d : String) (hd : d ∈ dateArr) (hc : d ∉ c.data.map (·.date)) :
    formatCountry type dateArr c = .error .typeError := by
  unfold formatCountry
  have h := arrayMap_error_of_mem hd ((cell_error_iff type c.data d).2 hc)
  simp only [h]

theorem format_error_of_missing (type : Field) (data : List CountryData) (c : CountryData)
    (d : String) (hc : c ∈ data) (hd : d ∈ buildDateArr data)
    (hm : d ∉ c.data.map (·.date)) : format type data = .error .typeError := by
  unfold format
  have h := arrayMap_error_of_mem hc (formatCountry_error_of_missing type _ c d hd hm)
  simp only [h]

theorem forall₂_getElem? {α β : Type} {R : α → β → Prop} {xs : List α} {ys : List β}
    (h : List.Forall₂ R xs ys) (i : Nat) (x : α) (y : β) (hx : xs[i]? = some x)
    (hy : ys[i]? = some y) : R x y := by
  induction h generalizing i with
  | nil => simp at hx
  | cons h1 _ ih =>
    cases i with
    | zero =>
      simp at hx hy
      subst hx hy
      exact h1
    | succ n =>
      simp at hx hy
      exact ih n hx hy

theorem orZero_defined (v : JSVal) : v.orZero ≠ .null ∧ v.orZero ≠ .undefined := by
  cases v <;> simp [JSVal.orZero, JSVal.truthy] <;> split <;> simp

theorem orZero_of_null (v : JSVal) (h : v = .null ∨ v = .undefined) : v.orZero = .num 0 := by
  rcases h with h | h <;> subst h <;> rfl

theorem cell_ok_of_mem (type : Field) (list : List DataPoint) (d : String)
    (h : d ∈ list.map (·.date)) :
    cell type list (list.map (·.date)) d = .ok (cellValue type list d) := by
  rw [cell_eq]
  unfold cellValue
  cases hf : list.find? (fun q => decide (q.date = d)) with
  | some item => rfl
  | none =>
    exfalso
    rw [List.find?_eq_none] at hf
    obtain ⟨q, hq, hqd⟩ := List.mem_map.1 h
    exact absurd (hf q hq) (by simp [hqd])

theorem cell_ok_defined (type : Field) (list : List DataPoint) (d : String) (v : JSVal)
    (h : cell type list (list.map (·.date)) d = .ok v) : v ≠ .null ∧ v ≠ .undefined := by
  rw [cell_eq] at h
  cases hf : list.find? (fun q => decide (q.date = d)) with
  | none => rw [hf] at h; cases h
  | some item =>
    rw [hf] at h
    cases h
    exact orZero_defined _

theorem format_ok_of_all_found (type : Field) (data : List CountryData)
    (h : ∀ c ∈ data, ∀ d ∈ buildDateArr data, d ∈ c.data.map (·.date)) :
    format type data =
      .ok { dateArr := buildDateArr data
            series := data.map (fun c =>
              { name := c.cn, type := "line"
                data := (buildDateArr data).map (cellValue type c.data) }) } := by
  rw [format_ok_iff]
  refine ⟨rfl, ?_⟩
  apply arrayMap_total
  intro c hc
  rw [formatCountry_ok_iff]
  refine ⟨rfl, rfl, ?_⟩
  apply arrayMap_total
  intro d hd
  exact cell_ok_of_mem type c.data d (h c hc d hd)

theorem format_ok_iff_all_found (type : Field) (data : List CountryData) :
    (∃ r, format type data = .ok r) ↔
      ∀ c ∈ data, ∀ d ∈ buildDateArr data, d ∈ c.data.map (·.date) := by
  constructor
  · rintro ⟨r, hr⟩ c hc d hd
    by_contra hm
    rw [format_error_of_missing type data c d hc hd hm] at hr
    cases hr
  · intro h
    exact ⟨_, format_ok_of_all_found type data h⟩

theorem format_ok_shape (type : Field) (data : List CountryData) (r : Formatted)
    (h : format type data = .ok r) :
    r.series.length = data.length ∧ ∀ s ∈ r.series, s.data.length = r.dateArr.length := by
  obtain ⟨h1, h2⟩ := (format_ok_iff type data r).1 h
  refine ⟨arrayMap_length h2, ?_⟩
  intro s hs
  have h3 := (arrayMap_ok_iff _ _ _).1 h2
  obtain ⟨k, hk, hks⟩ := List.getElem_of_mem hs
  have hlen := h3.length_eq
  have hk2 : k < data.length := by omega
  have h4 := List.Forall₂.get h3 hk2 hk
  simp only [List.get_eq_getElem] at h4
  rw [hks] at h4
  have h5 := ((formatCountry_ok_iff type _ _ s).1 h4).2.2
  rw [arrayMap_length h5, h1]

theorem formatCountry_names (type : Field) (dateArr : List String) (data : List CountryData)
    (series : List Series)
    (h : List.Forall₂ (fun c s => formatCountry type dateArr c = .ok s) data series) :
    series.map (·.name) = data.map (·.cn) := by
  induction h with
  | nil => rfl
  | cons h1 _ ih =>
    simp only [List.map_cons, ih]
    rw [((formatCountry_ok_iff type _ _ _).1 h1).1]

theorem format_ok_names (type : Field) (data : List CountryData) (r : Formatted)
    (h : format type data = .ok r) : r.series.map (·.name) = data.map (·.cn) := by
  obtain ⟨_, h2⟩ := (format_ok_iff type data r).1 h
  exact formatCountry_names type _ data r.series ((arrayMap_ok_iff _ _ _).1 h2)

theorem format_ok_cell (type : Field) (data : List CountryData) (r : Formatted)
    (h : format type data = .ok r) (k j : Nat) (c : CountryData) (s : Series) (d : String)
    (hc : data[k]? = some c) (hs : r.series[k]? = some s) (hd : r.dateArr[j]? = some d) :
    ∃ v, s.data[j]? = some v ∧ cell type c.data (c.data.map (·.date)) d = .ok v := by
  obtain ⟨h1, h2⟩ := (format_ok_iff type data r).1 h
  have h3 := (arrayMap_ok_iff _ _ _).1 h2
  have h4 := ((formatCountry_ok_iff type _ _ s).1 (forall₂_getElem? h3 k c s hc hs)).2.2
  have h5 := (arrayMap_ok_iff _ _ _).1 h4
  rw [h1] at hd
  have hj : j < (buildDateArr data).length := (List.getElem?_eq_some.1 hd).1
  have hj2 : j < s.data.length := by rw [← h5.length_eq]; exact hj
  refine ⟨s.data[j], by simp [hj2], ?_⟩
  exact forall₂_getElem? h5 j d s.data[j] hd (by simp [hj2])

theorem le_foldr_max (data : List CountryData) (c : CountryData) (hc : c ∈ data) :
    c.data.length ≤ (data.map (·.data.length)).foldr max 0 := by
  induction data with
  | nil => cases hc
  | cons x xs ih =>
    simp only [List.map_cons, List.foldr_cons]
    rcases List.mem_cons.1 hc with h | h
    · subst h; omega
    · have := ih h; omega

theorem find?_self_of_nodup (list : List DataPoint) (p : DataPoint) (hp : p ∈ list)
    (hn : (list.map (·.date)).Nodup) :
    list.find? (fun q => decide (q.date = p.date)) = some p := by
  induction list with
  | nil => cases hp
  | cons x xs ih =>
    rw [List.map_cons, List.nodup_cons] at hn
    rcases List.mem_cons.1 hp with h | h
    · subst h; simp
    · have hne : x.date ≠ p.date := by
        intro he
        exact hn.1 (he ▸ List.mem_map.2 ⟨p, h, rfl⟩)
      simp [List.find?, hne, ih h hn.2]

theorem getChartObject_ok (data : List CountryData) (r : Formatted)
    (h : format .Confirmed data = .ok r) :
    getChartObject data =
      .ok { death :=
              { title := { text := "主要疫情国家确诊趋势图" }
                tooltip := { trigger := "axis" }
                legend := { data := r.series.map (·.name) }
                xAxis := { type := "category", boundaryGap := none, data := r.dateArr }
                yAxis := { type := "value" }
                series := r.series }
            confirm :=
              { title := { text := "主要疫情国家确诊趋势图" }
                tooltip := { trigger := "axis" }
                legend := { data := r.series.map (·.name) }
                xAxis := { type := "category", boundaryGap := some false, data := r.dateArr }
                yAxis := { type := "value" }
                series := r.series }
            ratio := () } := by
  unfold getChartObject
  simp only [h]

theorem getChartObject_error (data : List CountryData)
    (h : format .Confirmed data = .error .typeError) :
    getChartObject data = .error .typeError := by
  unfold getChartObject
  simp only [h]

theorem buildHtml_error (stringify : ChartOption → String) (data : List CountryData)
    (h : getChartObject data = .error .typeError) :
    buildHtml stringify data = .error .typeError := by
  unfold buildHtml
  simp only [h]

theorem buildDateArr_single (s : CountryData) : buildDateArr [s] = s.data.map (·.date) := by
  simp [buildDateArr, objectAssign_nil]

/-! ## Lemmas on `getData` -/

theorem getDataLoop_error (fmt : JSVal → String) (endpoint : String → Response)
    (countryList : List Country) (acc : List CountryData) (country : Country)
    (hc : country ∈ countryList)
    (hbad : (∃ e, getCountryData endpoint country.en = .error e) ∨
      getCountryData endpoint country.en = .ok none) :
    ∃ e, getDataLoop fmt endpoint countryList acc = .error e := by
  induction countryList generalizing acc with
  | nil => cases hc
  | cons c rest ih =>
    cases hg : getCountryData endpoint c.en with
    | error e => exact ⟨e, by simp [getDataLoop, hg]⟩
    | ok res =>
      cases res with
      | none => exact ⟨.typeError, by simp [getDataLoop, hg, callFilterData]⟩
      | some records =>
        have hrest : country ∈ rest := by
          rcases List.mem_cons.1 hc with h | h
          · subst h
            rcases hbad with ⟨e, he⟩ | he
            · rw [hg] at he; cases he
            · rw [hg] at he; cases he
          · exact h
        obtain ⟨e, he⟩ := ih (acc ++ [filterData fmt c records]) hrest
        exact ⟨e, by simp [getDataLoop, hg, callFilterData, he]⟩

theorem getDataLoop_ok (fmt : JSVal → String) (endpoint : String → Response)
    (g : Country → List Feature) (countryList : List Country) (acc : List CountryData)
    (h : ∀ c ∈ countryList, getCountryData endpoint c.en = .ok (some (g c))) :
    getDataLoop fmt endpoint countryList acc =
      .ok (acc ++ countryList.map (fun c => filterData fmt c (g c))) := by
  induction countryList generalizing acc with
  | nil => simp [getDataLoop]
  | cons c rest ih =>
    have hc := h c (List.mem_cons_self _ _)
    have hrest := ih (acc ++ [filterData fmt c (g c)])
      (fun c2 hc2 => h c2 (List.mem_cons_of_mem _ hc2))
    simp [getDataLoop, hc, callFilterData, hrest]

theorem getCountryData_rejected (endpoint : String → Response) (country : String)
    (h : (endpoint country).status < 200 ∨ 300 ≤ (endpoint country).status) :
    getCountryData endpoint country = .error (.requestFailed (endpoint country).status) := by
  have hn : ¬ (200 ≤ (endpoint country).status ∧ (endpoint country).status < 300) := by omega
  simp [getCountryData, axiosRequest, hn]

theorem getCountryData_resolved (endpoint : String → Response) (country : String)
    (h : 200 ≤ (endpoint country).status ∧ (endpoint country).status < 300) :
    getCountryData endpoint country =
      if (endpoint country).status = 200 then .ok (endpoint country).features
      else .ok (some []) := by
  simp [getCountryData, axiosRequest, h]

/-! ## The claims -/

/-- C10: the `dateArr` of `Chart.format`, built by `Object.assign` of each
country's date array onto the accumulator, has the maximum data length over
all countries (0 without countries), and at every position `i` below that
length it holds the date at index `i` of the last country, in input order,
whose data has more than `i` points; it is the `dateArr` of every result of
`format`. -/
theorem format_dateArr_overlay (data : List CountryData) :
    (buildDateArr data).length = (data.map (·.data.length)).foldr max 0 ∧
    (∀ i : Nat, i < (buildDateArr data).length →
      ∃ (k : Nat) (c : CountryData), data[k]? = some c ∧ i < c.data.length ∧
        (∀ (k2 : Nat) (c2 : CountryData), k < k2 → data[k2]? = some c2 →
          c2.data.length ≤ i) ∧
        (buildDateArr data)[i]? = (c.data[i]?).map (·.date)) ∧
    (∀ (type : Field) (r : Formatted), format type data = .ok r →
      r.dateArr = buildDateArr data) :=
  ⟨buildDateArr_length data, buildDateArr_last data,
    fun type r h => ((format_ok_iff type data r).1 h).1⟩

/-- C10 at the countries A and C: `format` returns, and its `dateArr` is the
overlay of the two date arrays. -/
theorem format_dateArr_overlay_witness :
    ∃ r, format .Confirmed [sampleA, sampleC] = .ok r ∧
      r.dateArr = buildDateArr [sampleA, sampleC] ∧ r.dateArr = ["03-01", "03-03"] :=
  ⟨{ dateArr := ["03-01", "03-03"],
     series := [⟨"美国", "line", [.num 10, .num 30]⟩, ⟨"德国", "line", [.num 50, .num 60]⟩] },
    by decide,
    (format_dateArr_overlay [sampleA, sampleC]).2.2 .Confirmed _ (by decide), rfl⟩

/-- C3: when `Chart.format` returns `{dateArr, series}`, `series` has one
entry per input country and the data of every entry has `dateArr.length`
elements. -/
theorem format_series_aligned (type : Field) (data : List CountryData) (r : Formatted)
    (h : format type data = .ok r) :
    r.series.length = data.length ∧ ∀ s ∈ r.series, s.data.length = r.dateArr.length :=
  format_ok_shape type data r h

/-- C3 at the countries A and C, where `format` returns two series of two
values each. -/
theorem format_series_aligned_witness :
    format .Deaths [sampleA, sampleC] = .ok alignedAC ∧
      alignedAC.series.length = [sampleA, sampleC].length ∧
      ∀ s ∈ alignedAC.series, s.data.length = alignedAC.dateArr.length :=
  ⟨by decide, format_series_aligned .Deaths [sampleA, sampleC] alignedAC (by decide)⟩

/-- C7 fails on the code: `axios.request` rejects for every status outside
200 to 299, so one such response for one country makes `Spider.getData`
throw and no series is returned for any country, where the claim gives that
country an empty series and leaves the others unchanged; a 200 response
without `features` makes it throw too. When every response has a status from
200 to 299 and every 200 response has `features`, `getData` returns the one
series per country, in input order, that the claim describes. -/
theorem getData_fails_on_rejected_request (fmt : JSVal → String)
    (endpoint : String → Response) (countryList : List Country) :
    (∀ country ∈ countryList,
      ((endpoint country.en).status < 200 ∨ 300 ≤ (endpoint country.en).status) →
      ∃ e, getData fmt endpoint countryList = .error e) ∧
    (∀ country ∈ countryList,
      (endpoint country.en).status = 200 → (endpoint country.en).features = none →
      ∃ e, getData fmt endpoint countryList = .error e) ∧
    ((∀ country ∈ countryList,
        (200 ≤ (endpoint country.en).status ∧ (endpoint country.en).status < 300) ∧
        ((endpoint country.en).status = 200 → (endpoint country.en).features ≠ none)) →
      getData fmt endpoint countryList = .ok (specGetData fmt endpoint countryList)) := by
  refine ⟨?_, ?_, ?_⟩
  · intro country hc hs
    exact getDataLoop_error fmt endpoint countryList [] country hc
      (Or.inl ⟨_, getCountryData_rejected endpoint country.en hs⟩)
  · intro country hc hs hf
    refine getDataLoop_error fmt endpoint countryList [] country hc (Or.inr ?_)
    rw [getCountryData_resolved endpoint country.en (by omega), if_pos hs, hf]
  · intro h
    have hok := getDataLoop_ok fmt endpoint
      (fun c => if (endpoint c.en).status = 200 then (endpoint c.en).features.getD [] else [])
      countryList [] (by
        intro c hc
        obtain ⟨h1, h2⟩ := h c hc
        rw [getCountryData_resolved endpoint c.en h1]
        by_cases hs : (endpoint c.en).status = 200
        · simp only [hs, if_true]
          cases hf : (endpoint c.en).features with
          | none => exact absurd hf (h2 hs)
          | some records => rfl
        · simp only [hs, if_false])
    unfold getData
    rw [hok]
    simp only [List.nil_append, specGetData]
    congr 1
    apply List.map_congr_left
    intro c _
    by_cases hs : (endpoint c.en).status = 200
    · simp [hs]
    · simp [hs, filterData]

/-- C7 at the sample endpoint, which answers 200 for the US and 500 for
Spain: `getData` throws, where the specification gives the series of the US
and an empty series for Spain. -/
theorem getData_fails_on_rejected_request_witness :
    (∃ e, getData sampleFmt sampleEndpoint [⟨"US", "美国"⟩, ⟨"Spain", "西班牙"⟩] = .error e) ∧
      getData sampleFmt sampleEndpoint [⟨"US", "美国"⟩, ⟨"Spain", "西班牙"⟩] =
        .error (.requestFailed 500) ∧
      specGetData sampleFmt sampleEndpoint [⟨"US", "美国"⟩, ⟨"Spain", "西班牙"⟩] =
        [ { en := "US", cn := "美国",
            data := [{ date := "03-01", Deaths := .num 1, Confirmed := .null,
                       Delta_Confirmed := .undefined }] },
          { en := "Spain", cn := "西班牙", data := [] } ] :=
  ⟨(getData_fails_on_rejected_request sampleFmt sampleEndpoint
      [⟨"US", "美国"⟩, ⟨"Spain", "西班牙"⟩]).1 ⟨"Spain", "西班牙"⟩ (by decide) (by decide),
    by decide, by decide⟩

/-- C8: `Spider.filterData` yields one data point per record, in order, with
the `Deaths`, `Confirmed` and `Delta_Confirmed` counters copied verbatim;
where the date of the axis is found in the country's date list and the
requested counter of the matching data point is null or absent, the callback
of `Chart.format` returns the number 0, and so does every result of `format`
at that position; no series of a result of `format` contains null or
undefined; and whether `format` returns depends on the dates alone, never on
a counter. -/
theorem null_counters_reported_as_zero :
    (∀ (fmt : JSVal → String) (country : Country) (records : List Feature),
      (filterData fmt country records).data.length = records.length ∧
      ∀ (i : Nat) (record : Feature), records[i]? = some record →
        ∃ p, (filterData fmt country records).data[i]? = some p ∧
          p.Deaths = record.attributes.Deaths ∧
          p.Confirmed = record.attributes.Confirmed ∧
          p.Delta_Confirmed = record.attributes.Delta_Confirmed) ∧
    (∀ (type : Field) (list : List DataPoint) (d : String) (i : Nat) (item : DataPoint),
      indexOf (list.map (·.date)) d = (i : Int) → list[i]? = some item →
      (item.get type = .null ∨ item.get type = .undefined) →
      cell type list (list.map (·.date)) d = .ok (.num 0)) ∧
    (∀ (type : Field) (data : List CountryData) (r : Formatted), format type data = .ok r →
      (∀ s ∈ r.series, ∀ v ∈ s.data, v ≠ .null ∧ v ≠ .undefined) ∧
      (∀ (k j i : Nat) (c : CountryData) (s : Series) (d : String) (item : DataPoint),
        data[k]? = some c → r.series[k]? = some s → r.dateArr[j]? = some d →
        indexOf (c.data.map (·.date)) d = (i : Int) → c.data[i]? = some item →
        (item.get type = .null ∨ item.get type = .undefined) →
        s.data[j]? = some (.num 0))) ∧
    (∀ (type : Field) (data : List CountryData),
      (∃ r, format type data = .ok r) ↔
        ∀ c ∈ data, ∀ d ∈ buildDateArr data, d ∈ c.data.map (·.date)) := by
  have hcell : ∀ (type : Field) (list : List DataPoint) (d : String) (i : Nat)
      (item : DataPoint), indexOf (list.map (·.date)) d = (i : Int) → list[i]? = some item →
      (item.get type = .null ∨ item.get type = .undefined) →
      cell type list (list.map (·.date)) d = .ok (.num 0) := by
    intro type list d i item hi hitem hnull
    unfold cell
    simp only [hi, index]
    have : ¬ ((i : Int) < 0) := by omega
    simp only [this, if_false, Int.toNat_ofNat, hitem, orZero_of_null _ hnull]
  refine ⟨?_, hcell, ?_, format_ok_iff_all_found⟩
  · intro fmt country records
    refine ⟨by simp [filterData], ?_⟩
    intro i record hrec
    refine ⟨{ date := fmt record.attributes.Last_Update
              Deaths := record.attributes.Deaths
              Confirmed := record.attributes.Confirmed
              Delta_Confirmed := record.attributes.Delta_Confirmed }, ?_, rfl, rfl, rfl⟩
    simp [filterData, hrec]
  · intro type data r h
    constructor
    · intro s hs v hv
      obtain ⟨h1, h2⟩ := (format_ok_iff type data r).1 h
      have h3 := (arrayMap_ok_iff _ _ _).1 h2
      obtain ⟨k, hk, hks⟩ := List.getElem_of_mem hs
      obtain ⟨j, hj, hjv⟩ := List.getElem_of_mem hv
      have hk2 : k < data.length := by rw [h3.length_eq]; exact hk
      have hshape := (format_ok_shape type data r h).2 s hs
      have hj2 : j < r.dateArr.length := by omega
      obtain ⟨v2, hv2, hc2⟩ := format_ok_cell type data r h k j data[k] s r.dateArr[j]
        (by simp [hk2]) (by simp [hk, hks]) (by simp [hj2])
      have hvv : v2 = v := by
        rw [List.getElem?_eq_getElem hj, hjv] at hv2
        exact (Option.some.inj hv2).symm
      subst hvv
      exact cell_ok_defined type _ _ _ hc2
    · intro k j i c s d item hc hs hd hi hitem hnull
      obtain ⟨v, hv, hcv⟩ := format_ok_cell type data r h k j c s d hc hs hd
      rw [hcell type c.data d i item hi hitem hnull] at hcv
      cases hcv
      exact hv

/-- C8 at a country whose data point has a null `Deaths` counter: `format`
returns and its series holds no null or undefined value. -/
theorem null_counters_reported_as_zero_witness :
    format .Deaths [sampleNull] =
        .ok { dateArr := ["03-01"], series := [⟨"伊朗", "line", [.num 0]⟩] } ∧
      ∀ s ∈ [(⟨"伊朗", "line", [.num 0]⟩ : Series)], ∀ v ∈ s.data,
        v ≠ .null ∧ v ≠ .undefined :=
  ⟨by decide,
    (null_counters_reported_as_zero.2.2.1 .Deaths [sampleNull]
      { dateArr := ["03-01"], series := [⟨"伊朗", "line", [.num 0]⟩] } (by decide)).1⟩

/-- C9: when the alignment for `Confirmed` succeeds, `Chart.buildHtml`
returns the document with one serialized configuration, the `confirm` object
of `getChartObject`, whose `series` has one entry per input country and
whose `legend.data` is the list of the countries' `cn` in input order. -/
theorem buildHtml_embeds_confirm (stringify : ChartOption → String)
    (data : List CountryData) (r : Formatted) (h : format .Confirmed data = .ok r) :
    ∃ o, getChartObject data = .ok o ∧
      buildHtml stringify data =
        .ok (String.join
          (htmlHead ++ [ "confirm.setOption(" ++ stringify o.confirm ++ ");" ] ++ htmlTail)) ∧
      o.confirm.series.length = data.length ∧
      o.confirm.legend.data = data.map (·.cn) := by
  refine ⟨_, getChartObject_ok data r h, ?_, ?_, ?_⟩
  · unfold buildHtml
    simp only [getChartObject_ok data r h]
  · exact (format_ok_shape .Confirmed data r h).1
  · exact format_ok_names .Confirmed data r h

/-- C9 at the two countries A and C, whose date ranges overlap: the embedded
configuration has two series and both display names in input order. -/
theorem buildHtml_embeds_confirm_witness :
    ∃ o, getChartObject [sampleA, sampleC] = .ok o ∧
      buildHtml (fun _ => "") [sampleA, sampleC] =
        .ok (String.join
          (htmlHead ++ [ "confirm.setOption(" ++ (fun _ => "") o.confirm ++ ");" ] ++
            htmlTail)) ∧
      o.confirm.series.length = 2 ∧
      o.confirm.legend.data = ["美国", "德国"] :=
  buildHtml_embeds_confirm (fun _ => "") [sampleA, sampleC]
    { dateArr := ["03-01", "03-03"],
      series := [⟨"美国", "line", [.num 10, .num 30]⟩, ⟨"德国", "line", [.num 50, .num 60]⟩] }
    (by decide)

/-- C4 as stated fails: for the single series with the date `03-01` twice,
`format('Confirmed')` returns the value of the first point at both
positions, not the series' own values 10 and 70; and for the series with a
null `Deaths` counter it returns 0, not null. -/
theorem format_single_not_identity :
    format .Confirmed [sampleDup] =
        .ok { dateArr := ["03-01", "03-01"],
              series := [⟨"中国", "line", [.num 10, .num 10]⟩] } ∧
      sampleDup.data.map (·.get .Confirmed) = [.num 10, .num 70] ∧
      format .Deaths [sampleNull] =
        .ok { dateArr := ["03-01"], series := [⟨"伊朗", "line", [.num 0]⟩] } ∧
      sampleNull.data.map (·.get .Deaths) = [.null] := by
  decide

/-- C4, amended: for a single country series `s`, `Chart.format` on `[s]`
returns `s`'s own date list in original order as `dateArr` and one series,
named `s.cn`, holding at the position of each data point the field of the
first data point of `s` with the same date, a falsy value replaced by 0; when
the dates of `s` are pairwise distinct, this is position by position `s`'s own
value of the field, a falsy value replaced by 0. -/
theorem format_single (type : Field) (s : CountryData) :
    format type [s] =
        .ok { dateArr := s.data.map (·.date)
              series := [{ name := s.cn, type := "line"
                           data := s.data.map (fun p => cellValue type s.data p.date) }] } ∧
      ((s.data.map (·.date)).Nodup →
        s.data.map (fun p => cellValue type s.data p.date) =
          s.data.map (fun p => (p.get type).orZero)) := by
  constructor
  · have h := format_ok_of_all_found type [s] (by
      intro c hc d hd
      rw [List.mem_singleton.1 hc]
      rw [buildDateArr_single] at hd
      exact hd)
    rw [h, buildDateArr_single]
    simp [List.map_map, Function.comp_def]
  · intro hn
    apply List.map_congr_left
    intro p hp
    unfold cellValue
    rw [find?_self_of_nodup s.data p hp hn]

/-- C4, amended, at country A, whose dates are distinct: the aligned series
is A's own `Confirmed` values. -/
theorem format_single_witness :
    format .Confirmed [sampleA] =
      .ok { dateArr := ["03-01", "03-03"],
            series := [⟨"美国", "line", [.num 10, .num 30]⟩] } :=
  (format_single .Confirmed sampleA).1.trans (by decide)

/-- C1 fails on the code: for A with dates `03-01`, `03-03` and B with dates
`03-01`, `03-02` the `dateArr` of `Chart.format` is `03-01`, `03-02`, without
the date `03-03` of A, where the first-occurrence union is `03-01`, `03-03`,
`03-02`; and for a series with a repeated date `dateArr` repeats it. -/
theorem dateArr_not_union :
    buildDateArr [sampleA, sampleB] = ["03-01", "03-02"] ∧
      specDateAxis [sampleA, sampleB] = ["03-01", "03-03", "03-02"] ∧
      "03-03" ∉ buildDateArr [sampleA, sampleB] ∧
      buildDateArr [sampleDup] = ["03-01", "03-01"] ∧
      specDateAxis [sampleDup] = ["03-01"] := by
  decide

/-- C2 fails on the code: for A with dates `03-01`, `03-03` and B with dates
`03-01`, `03-02`, the callback of `Chart.format` throws a `TypeError` for A
at the date `03-02`, which A does not have, and so does `format`; the
specification gives A the series 10, 30, 0 and B the series 20, 0, 40 on the
axis `03-01`, `03-03`, `03-02`. -/
theorem format_throws_on_missing_date :
    indexOf (sampleA.data.map (·.date)) "03-02" = -1 ∧
      cell .Confirmed sampleA.data (sampleA.data.map (·.date)) "03-02" = .error .typeError ∧
      format .Confirmed [sampleA, sampleB] = .error .typeError ∧
      format .Deaths [sampleA, sampleB] = .error .typeError ∧
      specAligned .Confirmed (specDateAxis [sampleA, sampleB]) sampleA =
        [.num 10, .num 30, .num 0] ∧
      specAligned .Confirmed (specDateAxis [sampleA, sampleB]) sampleB =
        [.num 20, .num 0, .num 40] := by
  decide

/-- C5 fails on the code: whenever one country has no data point and another
has one, `Chart.format`, `Chart.getChartObject` and `Chart.buildHtml` throw a
`TypeError`. -/
theorem empty_country_throws (type : Field) (data : List CountryData)
    (c1 c2 : CountryData) (h1 : c1 ∈ data) (he : c1.data = []) (h2 : c2 ∈ data)
    (hn : c2.data ≠ []) :
    format type data = .error .typeError ∧
      getChartObject data = .error .typeError ∧
      ∀ stringify : ChartOption → String, buildHtml stringify data = .error .typeError := by
  have hlen : 0 < (buildDateArr data).length := by
    rw [buildDateArr_length]
    have := le_foldr_max data c2 h2
    have : 0 < c2.data.length := List.length_pos.2 hn
    omega
  obtain ⟨d, hd⟩ := List.exists_mem_of_length_pos hlen
  have hm : d ∉ c1.data.map (·.date) := by simp [he]
  have hf : ∀ ty : Field, format ty data = .error .typeError :=
    fun ty => format_error_of_missing ty data c1 d h1 hd hm
  exact ⟨hf type, getChartObject_error data (hf .Confirmed),
    fun stringify => buildHtml_error stringify data (getChartObject_error data (hf .Confirmed))⟩

/-- C5 at country A followed by a country without data points. -/
theorem empty_country_throws_witness :
    format .Confirmed [sampleA, sampleEmpty] = .error .typeError ∧
      getChartObject [sampleA, sampleEmpty] = .error .typeError ∧
      ∀ stringify : ChartOption → String,
        buildHtml stringify [sampleA, sampleEmpty] = .error .typeError :=
  empty_country_throws .Confirmed [sampleA, sampleEmpty] sampleEmpty sampleA
    (by decide) rfl (by decide) (by decide)

/-- C6 fails on the code: for country A the `death` chart of
`Chart.getChartObject` carries the `Confirmed` values 10, 30, the series of
`format('Confirmed')`, where `format('Deaths')` gives 1, 3. -/
theorem death_chart_is_confirmed :
    (getChartObject [sampleA]).toOption.map (·.death.series) =
        some [⟨"美国", "line", [.num 10, .num 30]⟩] ∧
      (format .Confirmed [sampleA]).toOption.map (·.series) =
        some [⟨"美国", "line", [.num 10, .num 30]⟩] ∧
      (format .Deaths [sampleA]).toOption.map (·.series) =
        some [⟨"美国", "line", [.num 1, .num 3]⟩] ∧
      (getChartObject [sampleA]).toOption.map (·.confirm.series) =
        some [⟨"美国", "line", [.num 10, .num 30]⟩] := by
  decide

end Covid
